import Mathlib

/-!
Verification of the k8s-pod-deleter controller
(`pkg/controller/controller.go`).

The controller lists pods, decides per pod whether it is eligible for
deletion (phase check, grace-period check, per-container reason check),
and issues deletions through an abstract `PodDeleter`.  We shallowly
embed the controller: the `PodLister` result becomes an `Except` value,
the `PodDeleter` becomes a pure function returning a `DeleteResult`,
`time.Now()` becomes an oracle `now : Nat → Int` sampled at each pod's
grace check, and `ctx.Done()` becomes an oracle `done : Nat → Bool`
consulted at the top of each pod iteration.  The pass returns a trace:
the `logger.Info "deleting pod"` decisions, the actual `DeletePod`
calls issued (each tagged with the index of the pod that caused it),
and the error returned by `Once`.
-/

namespace PodDeleter

/-- Pod phase, `v1.PodPhase` restricted to the five documented values. -/
inductive PodPhase
  | Pending
  | Running
  | Succeeded
  | Failed
  | Unknown
deriving DecidableEq

/-- `v1.ContainerStateTerminated`, reduced to the field the controller reads. -/
structure ContainerStateTerminated where
  reason : String
deriving DecidableEq

/-- `v1.ContainerStateWaiting`, reduced to the field the controller reads. -/
structure ContainerStateWaiting where
  reason : String
deriving DecidableEq

/-- `v1.ContainerState`: at most one of the three pointers is non-nil;
the controller only ever dereferences `Terminated` and `Waiting`. -/
structure ContainerState where
  running : Bool := false
  terminated : Option ContainerStateTerminated := none
  waiting : Option ContainerStateWaiting := none
deriving DecidableEq

/-- `v1.ContainerStatus`, reduced to the field the controller reads. -/
structure ContainerStatus where
  state : ContainerState
deriving DecidableEq

/-- `metav1.ObjectMeta`, reduced to the fields the controller reads.
`creationTimestamp` is an instant on an integer time line (the unit is
irrelevant to the logic; durations live on the same line). -/
structure ObjectMeta where
  «namespace» : String
  name : String
  creationTimestamp : Int
deriving DecidableEq

/-- `v1.PodStatus`, reduced to the fields the controller reads. -/
structure PodStatus where
  phase : PodPhase
  containerStatuses : List ContainerStatus
deriving DecidableEq

/-- `v1.Pod`, reduced to the fields the controller reads. -/
structure Pod where
  objectMeta : ObjectMeta
  status : PodStatus
deriving DecidableEq

/-- One minute of `time.Duration`, in nanoseconds. -/
def minute : Int := 60 * 1000000000

/-- `DefaultReasons` from controller.go. -/
def DefaultReasons : List String := ["CrashLoopBackOff", "Error"]

/-- The `Controller` struct.  The `lister`, `deleter`, `logger` and
`stopChan` fields are collaborators, passed separately to the functions
that use them; the remaining configuration fields are modelled here.
The `reasonsMap` (a Go `map[string]bool` holding `true` for every
accepted reason) is modelled as a duplicate-free list of its keys. -/
structure Controller where
  «namespace» : String := ""
  selector : String := ""
  grace : Int := 30 * minute
  interval : Int := 10 * minute
  dryRun : Bool := false
  reasons : List String := DefaultReasons
  reasonsMap : List String := []
deriving DecidableEq

/-- `Option func(*Controller) error`; every option defined in
controller.go returns a nil error, so options are total updates. -/
def ControllerOption := Controller → Controller

/-- `WithDryRun`. -/
def WithDryRun (dryrun : Bool) : ControllerOption :=
  fun c => { c with dryRun := dryrun }

/-- `WithNamespace`. -/
def WithNamespace (ns : String) : ControllerOption :=
  fun c => { c with «namespace» := ns }

/-- `WithSelector`. -/
def WithSelector (selector : String) : ControllerOption :=
  fun c => { c with selector := selector }

/-- `WithGrace`. -/
def WithGrace (d : Int) : ControllerOption :=
  fun c => { c with grace := d }

/-- `WithInterval`. -/
def WithInterval (d : Int) : ControllerOption :=
  fun c => { c with interval := d }

/-- `WithReasons`. -/
def WithReasons (reasons : List String) : ControllerOption :=
  fun c => { c with reasons := reasons }

/-- Go map insert `m[r] = true`, on the key-list model of the map. -/
def insertReason (m : List String) (r : String) : List String :=
  if m.contains r then m else m ++ [r]

/-- `New`: start from the struct-literal defaults, apply the options in
order, then build `reasonsMap` from `reasons`
(`for _, r := range c.reasons { c.reasonsMap[r] = true }`). -/
def New (options : List ControllerOption) : Controller :=
  let c := options.foldl (fun acc o => o acc) {}
  { c with reasonsMap := c.reasons.foldl insertReason [] }

/-- The result of one `DeletePod` call: nil error, an error for which
`k8sErrors.IsNotFound` holds, or any other error. -/
inductive DeleteResult
  | ok
  | err (notFound : Bool) (msg : String)
deriving DecidableEq

/-- A non-nil deletion error that is not `IsNotFound` aborts the pass. -/
def DeleteResult.isFatal : DeleteResult → Bool
  | .err false _ => true
  | _ => false

/-- A `PodDeleter`: `DeletePod(namespace, name)` as a pure function. -/
def Deleter := String → String → DeleteResult

/-- The errors `Once` can return: the wrap of a listing failure
(`errors.Wrap(err, "failed to list pods")`) and the wrap of a fatal
deletion failure
(`errors.Wrapf(err, "failed to delete pod %s/%s", ns, name)`). -/
inductive OnceError
  | listFailed (cause : String)
  | deleteFailed («namespace» : String) (name : String) (cause : String)
deriving DecidableEq

/-- The observable outcome of one `Once` pass: the
`logger.Info("deleting pod", ...)` decisions `(podIndex, namespace,
name, reason)`, the `DeletePod` calls issued `(podIndex, namespace,
name)`, and the returned error (`none` is a nil return). -/
structure OnceOutcome where
  decisions : List (Nat × String × String × String)
  deletions : List (Nat × String × String)
  error : Option OnceError
deriving DecidableEq

/-- The `switch pod.Status.Phase` guard: Pending, Succeeded and Unknown
are skipped with cause `PodPhase`. -/
def phaseExcluded : PodPhase → Bool
  | .Pending => true
  | .Succeeded => true
  | .Unknown => true
  | _ => false

/-- The per-container reason extraction:
`if Terminated != nil { reason = Terminated.Reason } else if Waiting != nil { reason = Waiting.Reason }`,
starting from `reason := ""`. -/
def extractReason (s : ContainerStatus) : String :=
  match s.state.terminated with
  | some t => t.reason
  | none =>
    match s.state.waiting with
    | some w => w.reason
    | none => ""

/-- The `STATUS` loop over `pod.Status.ContainerStatuses` for a pod at
index `k` with identity `ns`/`name`: extract the reason, skip the
container when the reason is not in `reasonsMap`, otherwise log the
deletion decision and, unless in dry-run, issue `DeletePod`; a nil or
not-found result continues the loop, any other error returns the
wrapped error at once. -/
def processStatuses (c : Controller) (deleter : Deleter) (k : Nat)
    (ns name : String) : List ContainerStatus → OnceOutcome
  | [] => ⟨[], [], none⟩
  | s :: rest =>
    let reason := extractReason s
    if c.reasonsMap.contains reason then
      let dec := (k, ns, name, reason)
      if c.dryRun then
        let r := processStatuses c deleter k ns name rest
        ⟨dec :: r.decisions, r.deletions, r.error⟩
      else
        let del := (k, ns, name)
        match deleter ns name with
        | .ok =>
          let r := processStatuses c deleter k ns name rest
          ⟨dec :: r.decisions, del :: r.deletions, r.error⟩
        | .err true _ =>
          let r := processStatuses c deleter k ns name rest
          ⟨dec :: r.decisions, del :: r.deletions, r.error⟩
        | .err false msg =>
          ⟨[dec], [del], some (.deleteFailed ns name msg)⟩
    else
      processStatuses c deleter k ns name rest

/-- The body of the pod loop for the pod at index `k`, after the
cancellation check: the phase guard, the grace-period guard
(`CreationTimestamp.Add(grace).After(now)` skips the pod), then the
container-status loop.  `now` is the value `time.Now()` returned at
this pod's grace check. -/
def processPod (c : Controller) (deleter : Deleter) (now : Int)
    (k : Nat) (pod : Pod) : OnceOutcome :=
  if phaseExcluded pod.status.phase then ⟨[], [], none⟩
  else if pod.objectMeta.creationTimestamp + c.grace > now then ⟨[], [], none⟩
  else
    processStatuses c deleter k pod.objectMeta.«namespace»
      pod.objectMeta.name pod.status.containerStatuses

/-- The `for _, pod := range pods` loop starting at index `k`: check
`ctx.Done()` first (a requested cancellation returns nil at once),
process the pod, return its error if any, else continue with the rest
and accumulate the traces. -/
def processPods (c : Controller) (deleter : Deleter)
    (done : Nat → Bool) (now : Nat → Int) (k : Nat) :
    List Pod → OnceOutcome
  | [] => ⟨[], [], none⟩
  | pod :: rest =>
    if done k then ⟨[], [], none⟩
    else
      let r := processPod c deleter (now k) k pod
      match r.error with
      | some e => ⟨r.decisions, r.deletions, some e⟩
      | none =>
        let r2 := processPods c deleter done now (k + 1) rest
        ⟨r.decisions ++ r2.decisions, r.deletions ++ r2.deletions, r2.error⟩

/-- `Controller.Once`: list the pods (a listing failure returns the
wrapped error with nothing deleted), then run the pod loop. -/
def Once (c : Controller) (deleter : Deleter)
    (done : Nat → Bool) (now : Nat → Int)
    (listResult : Except String (List Pod)) : OnceOutcome :=
  match listResult with
  | .error e => ⟨[], [], some (.listFailed e)⟩
  | .ok pods => processPods c deleter done now 0 pods

/-!
Characterizations.  `matchingStatuses`, `podDecisions`, `podDeletions`,
`allDecisions` and `allDeletions` are reference descriptions of the
trace a pass produces when nothing interrupts it; the lemmas below
relate them to the embedded controller.
-/

/-- The reasons, in container order, that the pod's container statuses
yield and that are members of the accepted-reasons map. -/
def matchingStatuses (c : Controller) (statuses : List ContainerStatus) :
    List String :=
  (statuses.map extractReason).filter (fun r => c.reasonsMap.contains r)

/-- The pure eligibility predicate of the spec: phase not excluded, at
least as old as the grace period, and some container status matching. -/
def podEligible (c : Controller) (now : Int) (pod : Pod) : Bool :=
  !phaseExcluded pod.status.phase &&
  !(pod.objectMeta.creationTimestamp + c.grace > now) &&
  !(matchingStatuses c pod.status.containerStatuses).isEmpty

/-- The deletion decisions an uninterrupted pass logs for the pod at
index `k`: one per matching container status, whether or not dry-run. -/
def podDecisions (c : Controller) (now : Int) (k : Nat) (pod : Pod) :
    List (Nat × String × String × String) :=
  if phaseExcluded pod.status.phase then []
  else if pod.objectMeta.creationTimestamp + c.grace > now then []
  else
    (matchingStatuses c pod.status.containerStatuses).map
      (fun r => (k, pod.objectMeta.«namespace», pod.objectMeta.name, r))

/-- The `DeletePod` calls an uninterrupted pass issues for the pod at
index `k`: none in dry-run, else one per matching container status. -/
def podDeletions (c : Controller) (now : Int) (k : Nat) (pod : Pod) :
    List (Nat × String × String) :=
  if phaseExcluded pod.status.phase then []
  else if pod.objectMeta.creationTimestamp + c.grace > now then []
  else if c.dryRun then []
  else
    (matchingStatuses c pod.status.containerStatuses).map
      (fun _ => (k, pod.objectMeta.«namespace», pod.objectMeta.name))

/-- All decisions of an uninterrupted pass over `pods` starting at
index `k`. -/
def allDecisions (c : Controller) (now : Nat → Int) :
    Nat → List Pod → List (Nat × String × String × String)
  | _, [] => []
  | k, pod :: rest =>
    podDecisions c (now k) k pod ++ allDecisions c now (k + 1) rest

/-- All `DeletePod` calls of an uninterrupted pass over `pods` starting
at index `k`. -/
def allDeletions (c : Controller) (now : Nat → Int) :
    Nat → List Pod → List (Nat × String × String)
  | _, [] => []
  | k, pod :: rest =>
    podDeletions c (now k) k pod ++ allDeletions c now (k + 1) rest

/-!
The scheduler (`Controller.Loop` / `Stop`).  `Loop` runs `Once`
synchronously, so passes never overlap; the only nondeterminism is
which `select` arm fires between passes and what each pass returns.
We model the pass results by an oracle `pr : Nat → Option OnceError`
(the error of the n-th `Once` call, pass 0 being the immediate one)
and the sequence of `select` outcomes by a list of events (a ticker
tick or a receive on `stopChan`).  Every return path runs the deferred
`cancel()`, recorded by the `cancelled` flag.
-/

/-- One `select` outcome inside `Loop`: a tick of the interval ticker
or a receipt of the stop signal. -/
inductive LoopEvent
  | tick
  | stop
deriving DecidableEq

/-- The error `Loop` returns: `errors.Wrap(err, "failed to run")`
around a pass error. -/
inductive LoopError
  | runFailed (cause : OnceError)
deriving DecidableEq

/-- The observable outcome of `Loop` on a finite schedule: still
blocked in `select` after consuming all events, or returned, with the
returned error (`none` is nil), the number of `Once` passes run, and
whether `cancel()` ran. -/
inductive LoopOutcome
  | running (passes : Nat)
  | returned (err : Option LoopError) (passes : Nat) (cancelled : Bool)
deriving DecidableEq

/-- The `for { select { ... } }` wait of `Loop`, having already run
`passes` passes: a tick runs the next pass and propagates its error as
fatal; a stop receipt calls `cancel()` and returns nil. -/
def loopRun (pr : Nat → Option OnceError) (passes : Nat) :
    List LoopEvent → LoopOutcome
  | [] => .running passes
  | .tick :: evs =>
    match pr passes with
    | some e => .returned (some (.runFailed e)) (passes + 1) true
    | none => loopRun pr (passes + 1) evs
  | .stop :: _ => .returned none passes true

/-- `Controller.Loop`: run `Once` immediately and propagate its error
(the wait is never entered when the first pass fails); otherwise enter
the repeating wait. -/
def Loop (pr : Nat → Option OnceError) (events : List LoopEvent) :
    LoopOutcome :=
  match pr 0 with
  | some e => .returned (some (.runFailed e)) 1 true
  | none => loopRun pr 1 events

/-!
Concrete fixtures used by witnesses and counterexamples.
-/

/-- A controller built by `New` accepting only the reason "Error". -/
def cxController : Controller := New [WithReasons ["Error"], WithGrace 60]

/-- A pod with two container statuses both Terminated("Error"). -/
def cxPod : Pod :=
  { objectMeta := { «namespace» := "default", name := "pod0",
                    creationTimestamp := 0 },
    status := { phase := .Running, containerStatuses :=
      [⟨{ terminated := some ⟨"Error"⟩ }⟩,
       ⟨{ terminated := some ⟨"Error"⟩ }⟩] } }

/-- A deleter whose every call succeeds. -/
def cxDeleter : Deleter := fun _ _ => .ok

/-- No cancellation. -/
def cxDone : Nat → Bool := fun _ => false

/-- A clock one hour past the pod's creation. -/
def cxNow : Nat → Int := fun _ => 3600

/-!
Shared lemmas relating the embedded pass to the characterizations.
-/

/-- Unfolding of `matchingStatuses` on a matching head status. -/
lemma matchingStatuses_cons_pos (c : Controller) (s : ContainerStatus)
    (rest : List ContainerStatus)
    (hc : c.reasonsMap.contains (extractReason s) = true) :
    matchingStatuses c (s :: rest) =
      extractReason s :: matchingStatuses c rest := by
  have hmem : extractReason s ∈ c.reasonsMap := by simpa using hc
  simp [matchingStatuses, List.filter_cons, hmem]

/-- Unfolding of `matchingStatuses` on a non-matching head status. -/
lemma matchingStatuses_cons_neg (c : Controller) (s : ContainerStatus)
    (rest : List ContainerStatus)
    (hc : c.reasonsMap.contains (extractReason s) = false) :
    matchingStatuses c (s :: rest) = matchingStatuses c rest := by
  have hmem : extractReason s ∉ c.reasonsMap := by simpa using hc
  simp [matchingStatuses, List.filter_cons, hmem]

/-- Every `DeletePod` call issued by the container-status loop of the
pod at index `k` carries that pod's index and identity. -/
lemma processStatuses_deletions_mem (c : Controller) (deleter : Deleter)
    (k : Nat) (ns name : String) (ss : List ContainerStatus) :
    ∀ d ∈ (processStatuses c deleter k ns name ss).deletions,
      d = (k, ns, name) := by
  induction ss with
  | nil => intro d hd; simp [processStatuses] at hd
  | cons s rest ih =>
    intro d hd
    simp only [processStatuses] at hd
    by_cases hmem : extractReason s ∈ c.reasonsMap
    · have hc : c.reasonsMap.contains (extractReason s) = true := by
        simpa using hmem
      rw [if_pos hc] at hd
      by_cases hdry : c.dryRun = true
      · rw [if_pos hdry] at hd
        exact ih d hd
      · rw [if_neg hdry] at hd
        rcases hdel : deleter ns name with _ | ⟨nf, msg⟩
        · rw [hdel] at hd
          rcases List.mem_cons.mp hd with h | h
          · exact h
          · exact ih d h
        · cases nf
          · rw [hdel] at hd
            simpa using hd
          · rw [hdel] at hd
            rcases List.mem_cons.mp hd with h | h
            · exact h
            · exact ih d h
    · have hc : c.reasonsMap.contains (extractReason s) = false := by
        simpa using hmem
      rw [if_neg (by simpa using hmem)] at hd
      exact ih d hd

/-- Every error the container-status loop returns is a `deleteFailed`
wrapped with that pod's namespace and name. -/
lemma processStatuses_error_shape (c : Controller) (deleter : Deleter)
    (k : Nat) (ns name : String) (ss : List ContainerStatus) (e : OnceError)
    (he : (processStatuses c deleter k ns name ss).error = some e) :
    ∃ msg, e = .deleteFailed ns name msg := by
  induction ss with
  | nil => simp [processStatuses] at he
  | cons s rest ih =>
    simp only [processStatuses] at he
    by_cases hmem : extractReason s ∈ c.reasonsMap
    · have hc : c.reasonsMap.contains (extractReason s) = true := by
        simpa using hmem
      rw [if_pos hc] at he
      by_cases hdry : c.dryRun = true
      · rw [if_pos hdry] at he
        exact ih he
      · rw [if_neg hdry] at he
        rcases hdel : deleter ns name with _ | ⟨nf, msg⟩
        · rw [hdel] at he
          exact ih he
        · cases nf
          · rw [hdel] at he
            exact ⟨msg, by simpa using he.symm⟩
          · rw [hdel] at he
            exact ih he
    · have hc : c.reasonsMap.contains (extractReason s) = false := by
        simpa using hmem
      rw [if_neg (by simpa using hmem)] at he
      exact ih he

/-- When `DeletePod` on this pod's identity never returns a fatal
error, the container-status loop logs one decision and issues one
deletion per matching container status (none in dry-run) and returns
no error. -/
lemma processStatuses_benign (c : Controller) (deleter : Deleter)
    (k : Nat) (ns name : String) (ss : List ContainerStatus)
    (hb : (deleter ns name).isFatal = false) :
    processStatuses c deleter k ns name ss =
      ⟨(matchingStatuses c ss).map (fun r => (k, ns, name, r)),
       if c.dryRun then []
       else (matchingStatuses c ss).map (fun _ => (k, ns, name)),
       none⟩ := by
  induction ss with
  | nil => simp [processStatuses, matchingStatuses]
  | cons s rest ih =>
    by_cases hmem : extractReason s ∈ c.reasonsMap
    · have hc : c.reasonsMap.contains (extractReason s) = true := by
        simpa using hmem
      have hm := matchingStatuses_cons_pos c s rest hc
      by_cases hdry : c.dryRun = true
      · simp [processStatuses, hmem, hdry, ih, hm]
      · rcases hdel : deleter ns name with _ | ⟨nf, msg⟩
        · simp [processStatuses, hmem, hdry, hdel, ih, hm]
        · cases nf
          · rw [hdel] at hb
            simp [DeleteResult.isFatal] at hb
          · simp [processStatuses, hmem, hdry, hdel, ih, hm]
    · have hc : c.reasonsMap.contains (extractReason s) = false := by
        simpa using hmem
      have hm := matchingStatuses_cons_neg c s rest hc
      simp [processStatuses, hmem, ih, hm]

/-- In dry-run the container-status loop issues no deletions and
returns no error, for any deleter. -/
lemma processStatuses_dryRun (c : Controller) (deleter : Deleter)
    (k : Nat) (ns name : String) (ss : List ContainerStatus)
    (hdry : c.dryRun = true) :
    processStatuses c deleter k ns name ss =
      ⟨(matchingStatuses c ss).map (fun r => (k, ns, name, r)), [], none⟩ := by
  induction ss with
  | nil => simp [processStatuses, matchingStatuses]
  | cons s rest ih =>
    by_cases hmem : extractReason s ∈ c.reasonsMap
    · have hc : c.reasonsMap.contains (extractReason s) = true := by
        simpa using hmem
      have hm := matchingStatuses_cons_pos c s rest hc
      simp [processStatuses, hmem, hdry, ih, hm]
    · have hc : c.reasonsMap.contains (extractReason s) = false := by
        simpa using hmem
      have hm := matchingStatuses_cons_neg c s rest hc
      simp [processStatuses, hmem, ih, hm]

/-- When no container status matches, the container-status loop does
nothing. -/
lemma processStatuses_noMatch (c : Controller) (deleter : Deleter)
    (k : Nat) (ns name : String) (ss : List ContainerStatus)
    (h : matchingStatuses c ss = []) :
    processStatuses c deleter k ns name ss = ⟨[], [], none⟩ := by
  induction ss with
  | nil => simp [processStatuses]
  | cons s rest ih =>
    by_cases hmem : extractReason s ∈ c.reasonsMap
    · exfalso
      have hc : c.reasonsMap.contains (extractReason s) = true := by
        simpa using hmem
      have hm := matchingStatuses_cons_pos c s rest hc
      rw [h] at hm
      exact List.cons_ne_nil _ _ hm.symm
    · have hc : c.reasonsMap.contains (extractReason s) = false := by
        simpa using hmem
      have hm := matchingStatuses_cons_neg c s rest hc
      rw [h] at hm
      simp [processStatuses, hmem, ih hm.symm]

/-- Unfolding equation of `processPods` on a non-empty list, with the
lets reduced. -/
lemma processPods_cons (c : Controller) (deleter : Deleter)
    (done : Nat → Bool) (now : Nat → Int) (k : Nat) (pod : Pod)
    (rest : List Pod) :
    processPods c deleter done now k (pod :: rest) =
      if done k then ⟨[], [], none⟩
      else
        match (processPod c deleter (now k) k pod).error with
        | some e =>
          ⟨(processPod c deleter (now k) k pod).decisions,
           (processPod c deleter (now k) k pod).deletions, some e⟩
        | none =>
          ⟨(processPod c deleter (now k) k pod).decisions ++
             (processPods c deleter done now (k + 1) rest).decisions,
           (processPod c deleter (now k) k pod).deletions ++
             (processPods c deleter done now (k + 1) rest).deletions,
           (processPods c deleter done now (k + 1) rest).error⟩ := rfl

/-- A pod whose phase is Pending, Succeeded or Unknown is skipped whole. -/
lemma processPod_excluded (c : Controller) (deleter : Deleter) (now : Int)
    (k : Nat) (pod : Pod) (h : phaseExcluded pod.status.phase = true) :
    processPod c deleter now k pod = ⟨[], [], none⟩ := by
  simp [processPod, h]

/-- A pod whose grace check sees `now < creationTimestamp + grace` is
skipped whole. -/
lemma processPod_tooYoung (c : Controller) (deleter : Deleter) (now : Int)
    (k : Nat) (pod : Pod)
    (h : pod.objectMeta.creationTimestamp + c.grace > now) :
    processPod c deleter now k pod = ⟨[], [], none⟩ := by
  by_cases hp : phaseExcluded pod.status.phase = true
  · simp [processPod, hp]
  · simp [processPod, hp, h]

/-- A pod with no matching container status contributes nothing. -/
lemma processPod_noMatch (c : Controller) (deleter : Deleter) (now : Int)
    (k : Nat) (pod : Pod)
    (h : matchingStatuses c pod.status.containerStatuses = []) :
    processPod c deleter now k pod = ⟨[], [], none⟩ := by
  by_cases hp : phaseExcluded pod.status.phase = true
  · simp [processPod, hp]
  · by_cases hg : pod.objectMeta.creationTimestamp + c.grace > now
    · simp [processPod, hp, hg]
    · simp [processPod, hp, hg, processStatuses_noMatch c deleter k _ _ _ h]

/-- Every `DeletePod` call the pod at index `k` causes carries that
pod's index and identity. -/
lemma processPod_deletions_mem (c : Controller) (deleter : Deleter)
    (now : Int) (k : Nat) (pod : Pod) :
    ∀ d ∈ (processPod c deleter now k pod).deletions,
      d = (k, pod.objectMeta.«namespace», pod.objectMeta.name) := by
  intro d hd
  by_cases hp : phaseExcluded pod.status.phase = true
  · rw [processPod_excluded c deleter now k pod hp] at hd
    simp at hd
  · by_cases hg : pod.objectMeta.creationTimestamp + c.grace > now
    · rw [processPod_tooYoung c deleter now k pod hg] at hd
      simp at hd
    · simp only [processPod, hp, hg, if_false, Bool.false_eq_true] at hd
      exact processStatuses_deletions_mem c deleter k _ _ _ d hd

/-- Every error the pod at index `k` causes is a `deleteFailed` with
that pod's identity. -/
lemma processPod_error_shape (c : Controller) (deleter : Deleter)
    (now : Int) (k : Nat) (pod : Pod) (e : OnceError)
    (he : (processPod c deleter now k pod).error = some e) :
    ∃ msg, e = .deleteFailed pod.objectMeta.«namespace»
      pod.objectMeta.name msg := by
  by_cases hp : phaseExcluded pod.status.phase = true
  · rw [processPod_excluded c deleter now k pod hp] at he
    simp at he
  · by_cases hg : pod.objectMeta.creationTimestamp + c.grace > now
    · rw [processPod_tooYoung c deleter now k pod hg] at he
      simp at he
    · simp only [processPod, hp, hg, if_false, Bool.false_eq_true] at he
      exact processStatuses_error_shape c deleter k _ _ _ e he

/-- With a deleter that never returns a fatal error on this pod's
identity, the pod at index `k` contributes exactly its characteristic
decisions and deletions and no error. -/
lemma processPod_benign (c : Controller) (deleter : Deleter) (now : Int)
    (k : Nat) (pod : Pod)
    (hb : (deleter pod.objectMeta.«namespace» pod.objectMeta.name).isFatal
      = false) :
    processPod c deleter now k pod =
      ⟨podDecisions c now k pod, podDeletions c now k pod, none⟩ := by
  by_cases hp : phaseExcluded pod.status.phase = true
  · simp [processPod, podDecisions, podDeletions, hp]
  · by_cases hg : pod.objectMeta.creationTimestamp + c.grace > now
    · simp [processPod, podDecisions, podDeletions, hp, hg]
    · rw [processPod, if_neg (by simp [hp]), if_neg hg,
        processStatuses_benign c deleter k _ _ _ hb]
      by_cases hdry : c.dryRun = true
      · simp [podDecisions, podDeletions, hp, hg, hdry]
      · simp [podDecisions, podDeletions, hp, hg, hdry]

/-- With no cancellation and a deleter that never returns a fatal
error, the pod loop from index `k` produces exactly the characteristic
traces of an uninterrupted pass and no error. -/
lemma processPods_benign (c : Controller) (deleter : Deleter)
    (done : Nat → Bool) (now : Nat → Int)
    (hdone : ∀ j, done j = false)
    (hb : ∀ ns n, (deleter ns n).isFatal = false) :
    ∀ (k : Nat) (pods : List Pod),
      processPods c deleter done now k pods =
        ⟨allDecisions c now k pods, allDeletions c now k pods, none⟩ := by
  intro k pods
  induction pods generalizing k with
  | nil => simp [processPods, allDecisions, allDeletions]
  | cons pod rest ih =>
    rw [processPods_cons, if_neg (by simp [hdone k]),
      processPod_benign c deleter (now k) k pod (hb _ _)]
    simp [allDecisions, allDeletions, ih (k + 1)]

/-- In dry-run the pod loop issues no deletions and returns no error,
for any deleter and any cancellation pattern. -/
lemma processPods_dryRun (c : Controller) (deleter : Deleter)
    (done : Nat → Bool) (now : Nat → Int) (hdry : c.dryRun = true) :
    ∀ (k : Nat) (pods : List Pod),
      (processPods c deleter done now k pods).deletions = [] ∧
      (processPods c deleter done now k pods).error = none := by
  intro k pods
  induction pods generalizing k with
  | nil => simp [processPods]
  | cons pod rest ih =>
    by_cases hd : done k = true
    · simp [processPods, hd]
    · have hpod : (processPod c deleter (now k) k pod).deletions = [] ∧
          (processPod c deleter (now k) k pod).error = none := by
        by_cases hp : phaseExcluded pod.status.phase = true
        · simp [processPod_excluded c deleter (now k) k pod hp]
        · by_cases hg : pod.objectMeta.creationTimestamp + c.grace > now k
          · simp [processPod_tooYoung c deleter (now k) k pod hg]
          · rw [processPod, if_neg (by simp [hp]), if_neg hg,
              processStatuses_dryRun c deleter k _ _ _ hdry]
            simp
      rw [processPods_cons, if_neg (by simp [hd]), hpod.2]
      simp [hpod.1, ih (k + 1)]

/-- In dry-run the deletion decisions are the same as those of the
identical controller with dry-run off running against a deleter whose
deletions all succeed. -/
lemma processPods_decisions_dry_eq (c : Controller) (deleter : Deleter)
    (done : Nat → Bool) (now : Nat → Int) (hdry : c.dryRun = true) :
    ∀ (k : Nat) (pods : List Pod),
      (processPods c deleter done now k pods).decisions =
      (processPods { c with dryRun := false } (fun _ _ => .ok)
        done now k pods).decisions := by
  have hmap : ({ c with dryRun := false } : Controller).reasonsMap
      = c.reasonsMap := rfl
  intro k pods
  induction pods generalizing k with
  | nil => simp [processPods]
  | cons pod rest ih =>
    by_cases hd : done k = true
    · simp [processPods, hd]
    · have hwet := processPod_benign { c with dryRun := false }
        (fun _ _ => .ok) (now k) k pod (by simp [DeleteResult.isFatal])
      have hdryPod : processPod c deleter (now k) k pod =
          ⟨podDecisions c (now k) k pod, [], none⟩ := by
        by_cases hp : phaseExcluded pod.status.phase = true
        · simp [processPod_excluded c deleter (now k) k pod hp,
            podDecisions, hp]
        · by_cases hg : pod.objectMeta.creationTimestamp + c.grace > now k
          · simp [processPod_tooYoung c deleter (now k) k pod hg,
              podDecisions, hp, hg]
          · rw [processPod, if_neg (by simp [hp]), if_neg hg,
              processStatuses_dryRun c deleter k _ _ _ hdry]
            simp [podDecisions, hp, hg]
      have hdec : podDecisions { c with dryRun := false } (now k) k pod
          = podDecisions c (now k) k pod := by
        simp [podDecisions, matchingStatuses]
      rw [processPods_cons, if_neg (by simp [hd]), hdryPod]
      rw [processPods_cons, if_neg (by simp [hd]), hwet]
      simp [hdec, ih (k + 1)]

/-- Every `DeletePod` call of a pass comes from a pod of the list: its
tag is the absolute index `k + j` of that pod and it belongs to that
pod's own contribution. -/
lemma processPods_deletions_index (c : Controller) (deleter : Deleter)
    (done : Nat → Bool) (now : Nat → Int) :
    ∀ (k : Nat) (pods : List Pod) (d : Nat × String × String),
      d ∈ (processPods c deleter done now k pods).deletions →
      ∃ j, ∃ hj : j < pods.length, d.1 = k + j ∧
        d ∈ (processPod c deleter (now (k + j)) (k + j)
          (pods.get ⟨j, hj⟩)).deletions := by
  intro k pods
  induction pods generalizing k with
  | nil => intro d hd; simp [processPods] at hd
  | cons pod rest ih =>
    intro d hd
    by_cases hdn : done k = true
    · simp [processPods, hdn] at hd
    · rw [processPods_cons, if_neg (by simp [hdn])] at hd
      cases he : (processPod c deleter (now k) k pod).error with
      | some e =>
        rw [he] at hd
        simp only at hd
        refine ⟨0, by simp, ?_, ?_⟩
        · have := processPod_deletions_mem c deleter (now k) k pod d hd
          simp [this]
        · simpa using hd
      | none =>
        rw [he] at hd
        simp only at hd
        rcases List.mem_append.mp hd with h | h
        · refine ⟨0, by simp, ?_, ?_⟩
          · have := processPod_deletions_mem c deleter (now k) k pod d h
            simp [this]
          · simpa using h
        · rcases ih (k + 1) d h with ⟨j, hj, hd1, hdm⟩
          refine ⟨j + 1, by simpa using Nat.succ_lt_succ hj, ?_, ?_⟩
          · rw [hd1]; omega
          · have hk : k + (j + 1) = k + 1 + j := by omega
            simp only [hk, List.get_cons_succ]
            exact hdm

/-- Entries of a pod's characteristic deletion trace carry its index. -/
lemma podDeletions_fst (c : Controller) (now : Int) (k : Nat) (pod : Pod) :
    ∀ d ∈ podDeletions c now k pod, d.1 = k := by
  intro d hd
  simp only [podDeletions] at hd
  split at hd
  · simp at hd
  · split at hd
    · simp at hd
    · split at hd
      · simp at hd
      · rcases List.mem_map.mp hd with ⟨r, _, hr⟩
        rw [← hr]

/-- Entries of the uninterrupted trace from index `k` have index at
least `k`. -/
lemma allDeletions_fst_ge (c : Controller) (now : Nat → Int) :
    ∀ (pods : List Pod) (k : Nat), ∀ d ∈ allDeletions c now k pods,
      k ≤ d.1 := by
  intro pods
  induction pods with
  | nil => intro k d hd; simp [allDeletions] at hd
  | cons pod rest ih =>
    intro k d hd
    rcases List.mem_append.mp hd with h | h
    · rw [podDeletions_fst c (now k) k pod d h]
    · exact Nat.le_of_succ_le (ih (k + 1) d h)

/-- Restricting the uninterrupted deletion trace to the index of the
`i`-th pod yields exactly that pod's characteristic deletions. -/
lemma allDeletions_filter (c : Controller) (now : Nat → Int) :
    ∀ (pods : List Pod) (k i : Nat) (hi : i < pods.length),
      (allDeletions c now k pods).filter (fun d => d.1 == k + i) =
        podDeletions c (now (k + i)) (k + i) (pods.get ⟨i, hi⟩) := by
  intro pods
  induction pods with
  | nil => intro k i hi; simp at hi
  | cons pod rest ih =>
    intro k i hi
    rw [show allDeletions c now k (pod :: rest) =
      podDeletions c (now k) k pod ++ allDeletions c now (k + 1) rest
      from rfl]
    rw [List.filter_append]
    cases i with
    | zero =>
      have h1 : (podDeletions c (now k) k pod).filter
          (fun d => d.1 == k + 0) = podDeletions c (now k) k pod := by
        apply List.filter_eq_self.mpr
        intro d hd
        simp [podDeletions_fst c (now k) k pod d hd]
      have h2 : (allDeletions c now (k + 1) rest).filter
          (fun d => d.1 == k + 0) = [] := by
        apply List.filter_eq_nil_iff.mpr
        intro d hd
        have := allDeletions_fst_ge c now rest (k + 1) d hd
        simp
        omega
      rw [h1, h2, List.append_nil]
      rfl
    | succ j =>
      have h1 : (podDeletions c (now k) k pod).filter
          (fun d => d.1 == k + (j + 1)) = [] := by
        apply List.filter_eq_nil_iff.mpr
        intro d hd
        have := podDeletions_fst c (now k) k pod d hd
        simp [this]
      have hj : j < rest.length := by simpa using Nat.lt_of_succ_lt_succ hi
      have h2 := ih (k + 1) j hj
      have hk : k + 1 + j = k + (j + 1) := by omega
      rw [h1, List.nil_append]
      rw [hk] at h2
      rw [h2]
      rfl

/-- An eligible pod's characteristic deletion trace is non-empty when
not in dry-run. -/
lemma podDeletions_ne_nil (c : Controller) (now : Int) (k : Nat) (pod : Pod)
    (he : podEligible c now pod = true) (hdry : c.dryRun = false) :
    podDeletions c now k pod ≠ [] := by
  simp only [podEligible, Bool.and_eq_true, Bool.not_eq_true'] at he
  rcases he with ⟨⟨hp, hg⟩, hm⟩
  have hglt : ¬(pod.objectMeta.creationTimestamp + c.grace > now) := by
    simpa using hg
  simp only [podDeletions, hp, hglt, hdry]
  simp only [Bool.false_eq_true, if_false]
  intro hcon
  rcases List.map_eq_nil_iff.mp hcon with hnil
  simp [hnil] at hm

/-- Map insertion preserves the keys already present. -/
lemma mem_insertReason (m : List String) (x r : String) (h : r ∈ m) :
    r ∈ insertReason m x := by
  unfold insertReason
  split
  · exact h
  · exact List.mem_append_left _ h

/-- Map insertion makes the inserted key present. -/
lemma self_mem_insertReason (m : List String) (x : String) :
    x ∈ insertReason m x := by
  unfold insertReason
  split
  · next hc => simpa using hc
  · exact List.mem_append_right _ (by simp)

/-- Folding map insertion over a list makes present every key that was
present before or occurs in the list. -/
lemma mem_foldl_insertReason (l : List String) :
    ∀ (acc : List String) (r : String), r ∈ acc ∨ r ∈ l →
      r ∈ l.foldl insertReason acc := by
  induction l with
  | nil =>
    intro acc r h
    rcases h with h | h
    · simpa using h
    · simp at h
  | cons a l ih =>
    intro acc r h
    rcases h with h | h
    · exact ih (insertReason acc a) r (Or.inl (mem_insertReason acc a r h))
    · rcases List.mem_cons.mp h with h | h
      · subst h
        exact ih (insertReason acc r) r (Or.inl (self_mem_insertReason acc r))
      · exact ih (insertReason acc a) r (Or.inr h)

/-!
Claim theorems and their witnesses.
-/

/-- C5: if listing pods fails, `Once` returns an error wrapping the
listing failure, and no deletion (and no deletion decision) is issued
during that pass. -/
theorem claim_C5 (c : Controller) (deleter : Deleter) (done : Nat → Bool)
    (now : Nat → Int) (e : String) :
    Once c deleter done now (.error e) =
      ⟨[], [], some (.listFailed e)⟩ := rfl

/-- C7: the pod loop checks the cancellation token before evaluating
each pod; if cancellation is requested there, the pass stops at once
with no further deletions and returns success (nil), and at index 0
the whole `Once` pass returns success with nothing deleted —
cancellation never produces an error. -/
theorem claim_C7 (c : Controller) (deleter : Deleter) (done : Nat → Bool)
    (now : Nat → Int) (k : Nat) (pods : List Pod)
    (hd : done k = true) :
    processPods c deleter done now k pods = ⟨[], [], none⟩ ∧
    (done 0 = true → Once c deleter done now (.ok pods) = ⟨[], [], none⟩) := by
  constructor
  · cases pods with
    | nil => rfl
    | cons pod rest => rw [processPods_cons, if_pos hd]
  · intro h0
    show processPods c deleter done now 0 pods = ⟨[], [], none⟩
    cases pods with
    | nil => rfl
    | cons pod rest => rw [processPods_cons, if_pos h0]

/-- C7 witness: a cancelled pass over one otherwise-eligible pod does
nothing and returns success. -/
theorem claim_C7_witness :
    processPods { reasonsMap := ["Error"] } (fun _ _ => .ok)
      (fun _ => true) (fun _ => 10)
      0 [⟨⟨"default", "pod0", 0⟩, ⟨.Failed, [⟨{ terminated := some ⟨"Error"⟩ }⟩]⟩⟩]
      = ⟨[], [], none⟩ ∧
    Once { reasonsMap := ["Error"] } (fun _ _ => .ok)
      (fun _ => true) (fun _ => 10)
      (.ok [⟨⟨"default", "pod0", 0⟩, ⟨.Failed, [⟨{ terminated := some ⟨"Error"⟩ }⟩]⟩⟩])
      = ⟨[], [], none⟩ := by
  have h := claim_C7 { reasonsMap := ["Error"] } (fun _ _ => .ok)
    (fun _ => true) (fun _ => 10) 0
    [⟨⟨"default", "pod0", 0⟩, ⟨.Failed, [⟨{ terminated := some ⟨"Error"⟩ }⟩]⟩⟩]
    rfl
  exact ⟨h.1, h.2 rfl⟩

/-- C9: `Loop` performs one pass immediately and propagates its error
without entering the wait; on each tick it performs another pass whose
error terminates the loop with no retry (later events are never
examined); a stop receipt cancels the context and returns success. -/
theorem claim_C9 :
    (∀ (pr : Nat → Option OnceError) (events : List LoopEvent) e,
      pr 0 = some e →
      Loop pr events = .returned (some (.runFailed e)) 1 true) ∧
    (∀ (pr : Nat → Option OnceError) (events : List LoopEvent),
      pr 0 = none → Loop pr events = loopRun pr 1 events) ∧
    (∀ (pr : Nat → Option OnceError) (n : Nat) (evs : List LoopEvent) e,
      pr n = some e →
      loopRun pr n (.tick :: evs) =
        .returned (some (.runFailed e)) (n + 1) true) ∧
    (∀ (pr : Nat → Option OnceError) (n : Nat) (evs : List LoopEvent),
      pr n = none → loopRun pr n (.tick :: evs) = loopRun pr (n + 1) evs) ∧
    (∀ (pr : Nat → Option OnceError) (n : Nat) (evs : List LoopEvent),
      loopRun pr n (.stop :: evs) = .returned none n true) := by
  refine ⟨?_, ?_, ?_, ?_, ?_⟩
  · intro pr events e h; simp [Loop, h]
  · intro pr events h; simp [Loop, h]
  · intro pr n evs e h; simp [loopRun, h]
  · intro pr n evs h; simp [loopRun, h]
  · intro pr n evs; simp [loopRun]

/-- C9 witness: concrete schedules — a failing first pass, a failing
tick pass, a succeeding tick, and a stop receipt. -/
theorem claim_C9_witness :
    Loop (fun _ => some (.listFailed "boom")) [.tick] =
      .returned (some (.runFailed (.listFailed "boom"))) 1 true ∧
    Loop (fun _ => none) [.stop] = loopRun (fun _ => none) 1 [.stop] ∧
    loopRun (fun _ => some (.listFailed "boom")) 3 [.tick, .stop] =
      .returned (some (.runFailed (.listFailed "boom"))) 4 true ∧
    loopRun (fun _ => none) 3 [.tick] = loopRun (fun _ => none) 4 [] ∧
    loopRun (fun _ => none) 5 [.stop, .tick] = .returned none 5 true :=
  ⟨claim_C9.1 (fun _ => some (.listFailed "boom")) [.tick] _ rfl,
   claim_C9.2.1 (fun _ => none) [.stop] rfl,
   claim_C9.2.2.1 (fun _ => some (.listFailed "boom")) 3 [.stop] _ rfl,
   claim_C9.2.2.2.1 (fun _ => none) 3 [] rfl,
   claim_C9.2.2.2.2 (fun _ => none) 5 [.tick]⟩

/-- C2: a pod whose phase is Pending, Succeeded or Unknown is never
deleted by the pass, regardless of age or container reasons; and the
phase guard lets exactly Running and Failed proceed. -/
theorem claim_C2 (c : Controller) (deleter : Deleter) (done : Nat → Bool)
    (now : Nat → Int) (pods : List Pod) (i : Nat) (hi : i < pods.length)
    (hp : (pods.get ⟨i, hi⟩).status.phase = .Pending ∨
          (pods.get ⟨i, hi⟩).status.phase = .Succeeded ∨
          (pods.get ⟨i, hi⟩).status.phase = .Unknown) :
    ((Once c deleter done now (.ok pods)).deletions.filter
      (fun d => d.1 == i)) = [] ∧
    (∀ p : PodPhase, phaseExcluded p = false ↔
      (p = .Running ∨ p = .Failed)) := by
  constructor
  · apply List.filter_eq_nil_iff.mpr
    intro d hd
    simp only [beq_iff_eq]
    intro hdi
    have hmem : d ∈ (processPods c deleter done now 0 pods).deletions := hd
    rcases processPods_deletions_index c deleter done now 0 pods d hmem
      with ⟨j, hj, h1, h2⟩
    have hji : j = i := by omega
    subst hji
    have hexcl : phaseExcluded (pods.get ⟨j, hj⟩).status.phase = true := by
      rcases hp with h | h | h <;> rw [h] <;> rfl
    rw [show (0 : Nat) + j = j from by omega] at h2
    rw [processPod_excluded c deleter (now j) j _ hexcl] at h2
    simp at h2
  · intro p
    cases p <;> simp [phaseExcluded]

/-- C2 witness: a three-hour-old Pending pod in CrashLoopBackOff is
not deleted. -/
theorem claim_C2_witness :
    ((Once { reasonsMap := ["CrashLoopBackOff"], grace := 60 }
        (fun _ _ => .ok) (fun _ => false) (fun _ => 10800)
        (.ok [⟨⟨"default", "pod0", 0⟩,
          ⟨.Pending, [⟨{ waiting := some ⟨"CrashLoopBackOff"⟩ }⟩]⟩⟩])).deletions.filter
      (fun d => d.1 == 0)) = [] ∧
    (∀ p : PodPhase, phaseExcluded p = false ↔
      (p = .Running ∨ p = .Failed)) :=
  claim_C2 { reasonsMap := ["CrashLoopBackOff"], grace := 60 }
    (fun _ _ => .ok) (fun _ => false) (fun _ => 10800)
    [⟨⟨"default", "pod0", 0⟩,
      ⟨.Pending, [⟨{ waiting := some ⟨"CrashLoopBackOff"⟩ }⟩]⟩⟩]
    0 (by decide) (Or.inl rfl)

/-- C3: a pod whose grace check sees `now < creationTimestamp + grace`
is never deleted by the pass, regardless of phase or container
reasons. -/
theorem claim_C3 (c : Controller) (deleter : Deleter) (done : Nat → Bool)
    (now : Nat → Int) (pods : List Pod) (i : Nat) (hi : i < pods.length)
    (hy : now i < (pods.get ⟨i, hi⟩).objectMeta.creationTimestamp + c.grace) :
    ((Once c deleter done now (.ok pods)).deletions.filter
      (fun d => d.1 == i)) = [] := by
  apply List.filter_eq_nil_iff.mpr
  intro d hd
  simp only [beq_iff_eq]
  intro hdi
  have hmem : d ∈ (processPods c deleter done now 0 pods).deletions := hd
  rcases processPods_deletions_index c deleter done now 0 pods d hmem
    with ⟨j, hj, h1, h2⟩
  have hji : j = i := by omega
  subst hji
  rw [show (0 : Nat) + j = j from by omega] at h2
  rw [processPod_tooYoung c deleter (now j) j _ hy] at h2
  simp at h2

/-- C3 witness: a one-minute-old Failed pod in CrashLoopBackOff with a
five-minute grace period is not deleted. -/
theorem claim_C3_witness :
    ((Once { reasonsMap := ["CrashLoopBackOff"], grace := 300 }
        (fun _ _ => .ok) (fun _ => false) (fun _ => 60)
        (.ok [⟨⟨"default", "pod0", 0⟩,
          ⟨.Failed, [⟨{ waiting := some ⟨"CrashLoopBackOff"⟩ }⟩]⟩⟩])).deletions.filter
      (fun d => d.1 == 0)) = [] :=
  claim_C3 { reasonsMap := ["CrashLoopBackOff"], grace := 300 }
    (fun _ _ => .ok) (fun _ => false) (fun _ => 60)
    [⟨⟨"default", "pod0", 0⟩,
      ⟨.Failed, [⟨{ waiting := some ⟨"CrashLoopBackOff"⟩ }⟩]⟩⟩]
    0 (by decide) (by decide)

/-- C6: a deleter that only ever succeeds or reports not-found lets an
uncancelled pass run to completion — not-found is treated as success
and every later eligible pod is still processed; a pod whose
processing returns an error makes the pass return that error at once,
with no pod after the failing one processed; and every such error is a
`deleteFailed` wrapped with the failing pod's namespace and name. -/
theorem claim_C6 :
    (∀ (c : Controller) (deleter : Deleter) (done : Nat → Bool)
       (now : Nat → Int) (pods : List Pod),
      (∀ ns n, (deleter ns n).isFatal = false) →
      (∀ k, done k = false) →
      Once c deleter done now (.ok pods) =
        ⟨allDecisions c now 0 pods, allDeletions c now 0 pods, none⟩) ∧
    (∀ (c : Controller) (deleter : Deleter) (done : Nat → Bool)
       (now : Nat → Int) (k : Nat) (pod : Pod) (rest : List Pod)
       (e : OnceError),
      done k = false →
      (processPod c deleter (now k) k pod).error = some e →
      processPods c deleter done now k (pod :: rest) =
        ⟨(processPod c deleter (now k) k pod).decisions,
         (processPod c deleter (now k) k pod).deletions, some e⟩) ∧
    (∀ (c : Controller) (deleter : Deleter) (now : Int) (k : Nat)
       (pod : Pod) (e : OnceError),
      (processPod c deleter now k pod).error = some e →
      ∃ msg, e = .deleteFailed pod.objectMeta.«namespace»
        pod.objectMeta.name msg) := by
  refine ⟨?_, ?_, ?_⟩
  · intro c deleter done now pods hb hdone
    exact processPods_benign c deleter done now hdone hb 0 pods
  · intro c deleter done now k pod rest e hdn he
    rw [processPods_cons, if_neg (by simp [hdn]), he]
  · intro c deleter now k pod e he
    exact processPod_error_shape c deleter now k pod e he

/-- C6 witness: a pass in which every deletion reports not-found still
deletes (attempts) both eligible pods and succeeds; a pass whose first
pod's deletion fails fatally returns the wrapped error and never
reaches the second pod. -/
theorem claim_C6_witness :
    Once { reasonsMap := ["Error"], grace := 60 }
      (fun _ _ => .err true "gone") (fun _ => false) (fun _ => 3600)
      (.ok [⟨⟨"default", "pod0", 0⟩,
              ⟨.Running, [⟨{ terminated := some ⟨"Error"⟩ }⟩]⟩⟩,
            ⟨⟨"default", "pod1", 0⟩,
              ⟨.Running, [⟨{ terminated := some ⟨"Error"⟩ }⟩]⟩⟩]) =
      ⟨allDecisions { reasonsMap := ["Error"], grace := 60 }
         (fun _ => 3600) 0
         [⟨⟨"default", "pod0", 0⟩,
             ⟨.Running, [⟨{ terminated := some ⟨"Error"⟩ }⟩]⟩⟩,
          ⟨⟨"default", "pod1", 0⟩,
             ⟨.Running, [⟨{ terminated := some ⟨"Error"⟩ }⟩]⟩⟩],
       allDeletions { reasonsMap := ["Error"], grace := 60 }
         (fun _ => 3600) 0
         [⟨⟨"default", "pod0", 0⟩,
             ⟨.Running, [⟨{ terminated := some ⟨"Error"⟩ }⟩]⟩⟩,
          ⟨⟨"default", "pod1", 0⟩,
             ⟨.Running, [⟨{ terminated := some ⟨"Error"⟩ }⟩]⟩⟩],
       none⟩ ∧
    processPods { reasonsMap := ["Error"], grace := 60 }
      (fun _ _ => .err false "boom") (fun _ => false) (fun _ => 3600) 0
      [⟨⟨"default", "pod0", 0⟩,
          ⟨.Running, [⟨{ terminated := some ⟨"Error"⟩ }⟩]⟩⟩,
       ⟨⟨"default", "pod1", 0⟩,
          ⟨.Running, [⟨{ terminated := some ⟨"Error"⟩ }⟩]⟩⟩] =
      ⟨(processPod { reasonsMap := ["Error"], grace := 60 }
          (fun _ _ => .err false "boom") 3600 0
          ⟨⟨"default", "pod0", 0⟩,
            ⟨.Running, [⟨{ terminated := some ⟨"Error"⟩ }⟩]⟩⟩).decisions,
       (processPod { reasonsMap := ["Error"], grace := 60 }
          (fun _ _ => .err false "boom") 3600 0
          ⟨⟨"default", "pod0", 0⟩,
            ⟨.Running, [⟨{ terminated := some ⟨"Error"⟩ }⟩]⟩⟩).deletions,
       some (.deleteFailed "default" "pod0" "boom")⟩ ∧
    (∃ msg, (OnceError.deleteFailed "default" "pod0" "boom") =
      .deleteFailed "default" "pod0" msg) :=
  ⟨claim_C6.1 { reasonsMap := ["Error"], grace := 60 }
     (fun _ _ => .err true "gone") (fun _ => false) (fun _ => 3600)
     [⟨⟨"default", "pod0", 0⟩,
         ⟨.Running, [⟨{ terminated := some ⟨"Error"⟩ }⟩]⟩⟩,
      ⟨⟨"default", "pod1", 0⟩,
         ⟨.Running, [⟨{ terminated := some ⟨"Error"⟩ }⟩]⟩⟩]
     (fun _ _ => rfl) (fun _ => rfl),
   claim_C6.2.1 { reasonsMap := ["Error"], grace := 60 }
     (fun _ _ => .err false "boom") (fun _ => false) (fun _ => 3600) 0
     ⟨⟨"default", "pod0", 0⟩,
        ⟨.Running, [⟨{ terminated := some ⟨"Error"⟩ }⟩]⟩⟩
     [⟨⟨"default", "pod1", 0⟩,
        ⟨.Running, [⟨{ terminated := some ⟨"Error"⟩ }⟩]⟩⟩]
     (.deleteFailed "default" "pod0" "boom") rfl rfl,
   claim_C6.2.2 { reasonsMap := ["Error"], grace := 60 }
     (fun _ _ => .err false "boom") 3600 0
     ⟨⟨"default", "pod0", 0⟩,
        ⟨.Running, [⟨{ terminated := some ⟨"Error"⟩ }⟩]⟩⟩
     (.deleteFailed "default" "pod0" "boom") rfl⟩

/-- C8: in dry-run mode no deletion call is ever issued and the pass
completes successfully, while the deletion decisions are exactly those
of the same controller with dry-run off whose every deletion
succeeds. -/
theorem claim_C8 (c : Controller) (deleter : Deleter) (done : Nat → Bool)
    (now : Nat → Int) (pods : List Pod) (hdry : c.dryRun = true) :
    (Once c deleter done now (.ok pods)).deletions = [] ∧
    (Once c deleter done now (.ok pods)).error = none ∧
    (Once c deleter done now (.ok pods)).decisions =
      (Once { c with dryRun := false } (fun _ _ => .ok) done now
        (.ok pods)).decisions := by
  have h1 := processPods_dryRun c deleter done now hdry 0 pods
  have h2 := processPods_decisions_dry_eq c deleter done now hdry 0 pods
  exact ⟨h1.1, h1.2, h2⟩

/-- C8 witness: a dry-run pass over an eligible pod, against a deleter
that would fail fatally, deletes nothing, succeeds, and logs the same
decision as the real pass would. -/
theorem claim_C8_witness :
    (Once { reasonsMap := ["Error"], grace := 60, dryRun := true }
       (fun _ _ => .err false "boom") (fun _ => false) (fun _ => 3600)
       (.ok [⟨⟨"default", "pod0", 0⟩,
         ⟨.Running, [⟨{ terminated := some ⟨"Error"⟩ }⟩]⟩⟩])).deletions = [] ∧
    (Once { reasonsMap := ["Error"], grace := 60, dryRun := true }
       (fun _ _ => .err false "boom") (fun _ => false) (fun _ => 3600)
       (.ok [⟨⟨"default", "pod0", 0⟩,
         ⟨.Running, [⟨{ terminated := some ⟨"Error"⟩ }⟩]⟩⟩])).error = none ∧
    (Once { reasonsMap := ["Error"], grace := 60, dryRun := true }
       (fun _ _ => .err false "boom") (fun _ => false) (fun _ => 3600)
       (.ok [⟨⟨"default", "pod0", 0⟩,
         ⟨.Running, [⟨{ terminated := some ⟨"Error"⟩ }⟩]⟩⟩])).decisions =
    (Once { ({ reasonsMap := ["Error"], grace := 60, dryRun := true } :
        Controller) with dryRun := false }
       (fun _ _ => .ok) (fun _ => false) (fun _ => 3600)
       (.ok [⟨⟨"default", "pod0", 0⟩,
         ⟨.Running, [⟨{ terminated := some ⟨"Error"⟩ }⟩]⟩⟩])).decisions :=
  claim_C8 { reasonsMap := ["Error"], grace := 60, dryRun := true }
    (fun _ _ => .err false "boom") (fun _ => false) (fun _ => 3600)
    [⟨⟨"default", "pod0", 0⟩,
      ⟨.Running, [⟨{ terminated := some ⟨"Error"⟩ }⟩]⟩⟩] rfl

/-- C4: the per-container reason is the Terminated reason if present,
else the Waiting reason if present, else the empty string; membership
in the accepted-reasons map is exact string equality; a pod none of
whose container statuses match is never deleted, in particular a pod
with no container statuses; and with an empty accepted-reasons map no
pod is ever deleted. -/
theorem claim_C4 (c : Controller) (deleter : Deleter) (done : Nat → Bool)
    (now : Nat → Int) (pods : List Pod) (i : Nat) (hi : i < pods.length) :
    (∀ (s : ContainerStatus) (t : ContainerStateTerminated),
      s.state.terminated = some t → extractReason s = t.reason) ∧
    (∀ (s : ContainerStatus) (w : ContainerStateWaiting),
      s.state.terminated = none → s.state.waiting = some w →
      extractReason s = w.reason) ∧
    (∀ s : ContainerStatus, s.state.terminated = none →
      s.state.waiting = none → extractReason s = "") ∧
    (∀ r : String, c.reasonsMap.contains r = true ↔ r ∈ c.reasonsMap) ∧
    (matchingStatuses c (pods.get ⟨i, hi⟩).status.containerStatuses = [] →
      ((Once c deleter done now (.ok pods)).deletions.filter
        (fun d => d.1 == i)) = []) ∧
    ((pods.get ⟨i, hi⟩).status.containerStatuses = [] →
      matchingStatuses c (pods.get ⟨i, hi⟩).status.containerStatuses = []) ∧
    (c.reasonsMap = [] →
      (Once c deleter done now (.ok pods)).deletions = []) := by
  refine ⟨?_, ?_, ?_, ?_, ?_, ?_, ?_⟩
  · intro s t h
    simp [extractReason, h]
  · intro s w h1 h2
    simp [extractReason, h1, h2]
  · intro s h1 h2
    simp [extractReason, h1, h2]
  · intro r
    constructor
    · intro h; simpa using h
    · intro h; simpa using h
  · intro hm
    apply List.filter_eq_nil_iff.mpr
    intro d hd
    simp only [beq_iff_eq]
    intro hdi
    have hmem : d ∈ (processPods c deleter done now 0 pods).deletions := hd
    rcases processPods_deletions_index c deleter done now 0 pods d hmem
      with ⟨j, hj, h1, h2⟩
    have hji : j = i := by omega
    subst hji
    rw [show (0 : Nat) + j = j from by omega] at h2
    rw [processPod_noMatch c deleter (now j) j _ hm] at h2
    simp at h2
  · intro h
    simp only [matchingStatuses]
    rw [h]
    rfl
  · intro hrm
    apply List.eq_nil_iff_forall_not_mem.mpr
    intro d hd
    have hmem : d ∈ (processPods c deleter done now 0 pods).deletions := hd
    rcases processPods_deletions_index c deleter done now 0 pods d hmem
      with ⟨j, hj, h1, h2⟩
    have hm : matchingStatuses c
        (pods.get ⟨j, hj⟩).status.containerStatuses = [] := by
      simp [matchingStatuses, hrm]
    rw [processPod_noMatch c deleter (now (0 + j)) (0 + j) _ hm] at h2
    simp at h2

/-- C4 witness: with the default accepted reasons, an old Running pod
whose single container is Running (reason "") is not deleted; a pod
with no container statuses yields no matching statuses; and the empty
accepted-reasons map deletes nothing even for a crashing pod. -/
theorem claim_C4_witness :
    (extractReason ⟨{ terminated := some ⟨"Error"⟩ }⟩ = "Error") ∧
    (((Once { reasonsMap := ["CrashLoopBackOff", "Error"], grace := 60 }
        (fun _ _ => .ok) (fun _ => false) (fun _ => 3600)
        (.ok [⟨⟨"default", "pod0", 0⟩,
          ⟨.Running, [⟨{ running := true }⟩]⟩⟩])).deletions.filter
      (fun d => d.1 == 0)) = []) ∧
    (matchingStatuses { reasonsMap := ["CrashLoopBackOff", "Error"], grace := 60 }
      (⟨⟨"default", "pod1", 0⟩, ⟨.Failed, []⟩⟩ : Pod).status.containerStatuses = []) ∧
    ((Once { reasonsMap := [], grace := 60 }
        (fun _ _ => .ok) (fun _ => false) (fun _ => 3600)
        (.ok [⟨⟨"default", "pod0", 0⟩,
          ⟨.Failed, [⟨{ waiting := some ⟨"CrashLoopBackOff"⟩ }⟩]⟩⟩])).deletions
      = []) := by
  have h1 := claim_C4 { reasonsMap := ["CrashLoopBackOff", "Error"], grace := 60 }
    (fun _ _ => .ok) (fun _ => false) (fun _ => 3600)
    [⟨⟨"default", "pod0", 0⟩, ⟨.Running, [⟨{ running := true }⟩]⟩⟩]
    0 (by decide)
  have h2 := claim_C4 { reasonsMap := ["CrashLoopBackOff", "Error"], grace := 60 }
    (fun _ _ => .ok) (fun _ => false) (fun _ => 3600)
    [⟨⟨"default", "pod1", 0⟩, ⟨.Failed, []⟩⟩] 0 (by decide)
  have h3 := claim_C4 { reasonsMap := [], grace := 60 }
    (fun _ _ => .ok) (fun _ => false) (fun _ => 3600)
    [⟨⟨"default", "pod0", 0⟩,
      ⟨.Failed, [⟨{ waiting := some ⟨"CrashLoopBackOff"⟩ }⟩]⟩⟩] 0 (by decide)
  refine ⟨h1.1 _ ⟨"Error"⟩ rfl, h1.2.2.2.2.1 (by decide), ?_, ?_⟩
  · exact h2.2.2.2.2.2.1 rfl
  · exact h3.2.2.2.2.2.2 rfl

/-!
C1.  The spec says an eligible pod is deleted exactly once and that
remaining container statuses are not evaluated once deletion is
issued.  The `STATUS` loop in `Once` has no `break`: after a deletion
it continues with the next container status, so a pod with several
matching container statuses causes several `DeletePod` calls.  The
fixtures `cxController` and `cxPod` exhibit this on a Running pod
whose two containers are both Terminated with reason "Error".
-/

/-- C1 counterexample: the pod is eligible, the pass is not dry-run,
yet two deletions are issued for it — not exactly one — because the
second container status is still evaluated after the first deletion
was issued. -/
theorem claim_C1_counterexample :
    podEligible cxController (cxNow 0) cxPod = true ∧
    cxController.dryRun = false ∧
    (Once cxController cxDeleter cxDone cxNow (.ok [cxPod])).deletions =
      [(0, "default", "pod0"), (0, "default", "pod0")] ∧
    ¬ (Once cxController cxDeleter cxDone cxNow
        (.ok [cxPod])).deletions.length = 1 := by
  refine ⟨rfl, rfl, rfl, by decide⟩

/-- C1 (amended): in an uncancelled pass whose deletions never fail
fatally, the pod at index `i` causes exactly one `DeletePod` call per
matching container status — its remaining container statuses keep
being evaluated after a deletion is issued — and an eligible pod
causes at least one deletion when not in dry-run. -/
theorem claim_C1 (c : Controller) (deleter : Deleter) (done : Nat → Bool)
    (now : Nat → Int) (pods : List Pod) (i : Nat) (hi : i < pods.length)
    (hdone : ∀ k, done k = false)
    (hb : ∀ ns n, (deleter ns n).isFatal = false) :
    ((Once c deleter done now (.ok pods)).deletions.filter
      (fun d => d.1 == i)) =
      podDeletions c (now i) i (pods.get ⟨i, hi⟩) ∧
    (podEligible c (now i) (pods.get ⟨i, hi⟩) = true → c.dryRun = false →
      ((Once c deleter done now (.ok pods)).deletions.filter
        (fun d => d.1 == i)) ≠ []) := by
  have h0 : Once c deleter done now (.ok pods) =
      processPods c deleter done now 0 pods := rfl
  rw [h0, processPods_benign c deleter done now hdone hb 0 pods]
  have hf := allDeletions_filter c now pods 0 i hi
  simp only [Nat.zero_add] at hf
  refine ⟨hf, ?_⟩
  intro he hdry
  rw [hf]
  exact podDeletions_ne_nil c (now i) i _ he hdry

/-- C1 witness: on the two-container fixture the pass's deletions for
pod 0 are exactly its two characteristic deletions, and are
non-empty. -/
theorem claim_C1_witness :
    ((Once cxController cxDeleter cxDone cxNow
        (.ok [cxPod])).deletions.filter (fun d => d.1 == 0)) =
      podDeletions cxController (cxNow 0) 0 cxPod ∧
    ((Once cxController cxDeleter cxDone cxNow
        (.ok [cxPod])).deletions.filter (fun d => d.1 == 0)) ≠ [] := by
  have h := claim_C1 cxController cxDeleter cxDone cxNow [cxPod] 0
    (by decide) (fun _ => rfl) (fun _ _ => rfl)
  exact ⟨h.1, h.2 (by decide) rfl⟩

/-- C10: when the configured accepted-reasons list contains the empty
string, a pod that passes the phase and grace checks and has a
container status with neither a Terminated nor a Waiting state is
deleted in an uncancelled, fatal-error-free pass: the extracted reason
for such a container is the empty string and it is looked up in the
accepted set like any other reason. -/
theorem claim_C10 (rs : List String) (deleter : Deleter)
    (done : Nat → Bool) (now : Nat → Int) (pods : List Pod) (i : Nat)
    (hi : i < pods.length)
    (hrs : "" ∈ rs)
    (hdone : ∀ k, done k = false)
    (hb : ∀ ns n, (deleter ns n).isFatal = false)
    (hp : phaseExcluded (pods.get ⟨i, hi⟩).status.phase = false)
    (hg : ¬((pods.get ⟨i, hi⟩).objectMeta.creationTimestamp +
        (New [WithReasons rs]).grace > now i))
    (s : ContainerStatus)
    (hs : s ∈ (pods.get ⟨i, hi⟩).status.containerStatuses)
    (ht : s.state.terminated = none) (hw : s.state.waiting = none) :
    ((Once (New [WithReasons rs]) deleter done now
        (.ok pods)).deletions.filter (fun d => d.1 == i)) ≠ [] := by
  have hmapmem : "" ∈ (New [WithReasons rs]).reasonsMap :=
    mem_foldl_insertReason rs [] "" (Or.inr hrs)
  have hr : extractReason s = "" := by
    simp [extractReason, ht, hw]
  have hmm : extractReason s ∈ matchingStatuses (New [WithReasons rs])
      (pods.get ⟨i, hi⟩).status.containerStatuses := by
    apply List.mem_filter.mpr
    refine ⟨List.mem_map.mpr ⟨s, hs, rfl⟩, ?_⟩
    rw [hr]
    simpa using hmapmem
  have hmne : matchingStatuses (New [WithReasons rs])
      (pods.get ⟨i, hi⟩).status.containerStatuses ≠ [] :=
    List.ne_nil_of_mem hmm
  have helig : podEligible (New [WithReasons rs]) (now i)
      (pods.get ⟨i, hi⟩) = true := by
    have hp' := hp
    have hg' := hg
    have hmne' := hmne
    simp only [List.get_eq_getElem] at hp' hg' hmne'
    simp [podEligible, hp', hg', hmne']
  rw [show Once (New [WithReasons rs]) deleter done now (.ok pods) =
    processPods (New [WithReasons rs]) deleter done now 0 pods from rfl]
  rw [processPods_benign (New [WithReasons rs]) deleter done now
    hdone hb 0 pods]
  have hf := allDeletions_filter (New [WithReasons rs]) now pods 0 i hi
  simp only [Nat.zero_add] at hf
  rw [hf]
  exact podDeletions_ne_nil (New [WithReasons rs]) (now i) i _ helig rfl

/-- C10 witness: with accepted reasons `["CrashLoopBackOff", ""]`, an
old Running pod whose single container is in the Running state (no
Terminated, no Waiting) is deleted. -/
theorem claim_C10_witness :
    ((Once (New [WithReasons ["CrashLoopBackOff", ""]])
        (fun _ _ => .ok) (fun _ => false) (fun _ => 1800000000000)
        (.ok [⟨⟨"default", "pod0", 0⟩,
          ⟨.Running, [⟨{ running := true }⟩]⟩⟩])).deletions.filter
      (fun d => d.1 == 0)) ≠ [] :=
  claim_C10 ["CrashLoopBackOff", ""] (fun _ _ => .ok) (fun _ => false)
    (fun _ => 1800000000000)
    [⟨⟨"default", "pod0", 0⟩, ⟨.Running, [⟨{ running := true }⟩]⟩⟩]
    0 (by decide) (by decide) (fun _ => rfl) (fun _ _ => rfl) rfl
    (by decide) ⟨{ running := true }⟩ (by decide) rfl rfl

end PodDeleter
